import Mathlib

/-!
Verification development for the expense-tracker web application
(Express + Prisma backend).  The controllers in
src/server/src/controllers and the unnamed controller files
(categoryController, expenseController) are embedded shallowly:

* database rows become Lean structures; the three tables live in `State`;
* UUIDs and calendar dates are modelled as `Nat` (dates as day numbers;
  the YYYY-MM month parameter of the category summary is modelled by the
  inclusive day window `[lo, hi]` it denotes, and the JS `Date`
  arithmetic `today.getDate() - 7` becomes truncated subtraction);
* `DECIMAL(10,2)` amounts and the JS numbers computed from them are
  modelled as `ℚ`; `Math.round` is Mathlib's `round` (both round half
  away from zero towards positive infinity);
* bcrypt is modelled by an arbitrary hash oracle passed as a parameter;
* each HTTP handler becomes a function from the current `State` and the
  validated request data to the new `State` and the JSON response
  envelope it sends.

JS truthiness tests that the controllers perform on numbers
(`limit ? _ : null`, `percentage ? _ : null`,
`validatedData.monthlyLimit ? _ : null`) are modelled by explicit
zero/null tests, mirroring that both `null`/`undefined` and `0` are
falsy.
-/

namespace ExpenseTracker

/-- Traffic-light budget status used by the category summary. -/
inductive Status where
  | green
  | yellow
  | red
deriving DecidableEq

/-- The uniform JSON response envelope sent by the controllers:
HTTP status code, the `success` flag and the `message` string. -/
structure Response where
  status : Nat
  success : Bool
  message : String
deriving DecidableEq

/-- A row of the users table (password stores the bcrypt hash). -/
structure User where
  id : Nat
  name : String
  email : String
  password : String
deriving DecidableEq

/-- A row of the categories table.  `monthlyLimit` is the optional
nonnegative decimal budget limit. -/
structure Category where
  id : Nat
  userId : Nat
  name : String
  color : Option String
  monthlyLimit : Option ℚ
deriving DecidableEq

/-- A row of the expenses table.  `categoryId` is nullable at the
schema level (the migration declares ON DELETE SET NULL). -/
structure Expense where
  id : Nat
  userId : Nat
  categoryId : Option Nat
  title : String
  amount : ℚ
  date : Nat
  createdAt : Nat
  notes : Option String
deriving DecidableEq

/-- The database: the three tables. -/
structure State where
  users : List User
  categories : List Category
  expenses : List Expense
deriving DecidableEq

/-- The empty database. -/
def emptyState : State := { users := [], categories := [], expenses := [] }

/-- Sum of a numeric attribute over a list of rows (the SQL SUM / JS
reduce pattern used throughout the controllers). -/
def sumOn {α : Type} (xs : List α) (f : α → ℚ) : ℚ :=
  (xs.map f).sum

theorem sumOn_nil {α : Type} (f : α → ℚ) : sumOn [] f = 0 := rfl

theorem sumOn_append {α : Type} (xs ys : List α) (f : α → ℚ) :
    sumOn (xs ++ ys) f = sumOn xs f + sumOn ys f := by
  simp [sumOn]

/-- Summing a fixed attribute is invariant under permutation of rows. -/
theorem sumOn_perm {α : Type} {xs ys : List α} (h : xs.Perm ys) (f : α → ℚ) :
    sumOn xs f = sumOn ys f :=
  (h.map f).sum_eq

/-- Restricting a filter by a predicate that already holds on every row
it keeps does not change the result. -/
theorem filter_filter_of_imp {α : Type} (p q : α → Bool) (xs : List α)
    (h : ∀ x ∈ xs, p x = true → q x = true) :
    xs.filter p = (xs.filter q).filter p := by
  rw [List.filter_filter]
  refine (List.filter_congr ?_).symm
  intro x hx
  cases hp : p x with
  | false => simp
  | true => simp [h x hx hp]

/-- Splitting a sum over rows by a boolean predicate. -/
theorem sumOn_filter_add_not {α : Type} (p : α → Bool) (xs : List α) (f : α → ℚ) :
    sumOn (xs.filter p) f + sumOn (xs.filter (fun x => ! p x)) f = sumOn xs f := by
  induction xs with
  | nil => simp [sumOn]
  | cons a t ih =>
      cases hp : p a with
      | false => simp [sumOn, List.filter_cons, hp] at ih ⊢; linarith
      | true => simp [sumOn, List.filter_cons, hp] at ih ⊢; linarith

/-- GROUP BY core lemma: if a duplicate-free list of keys covers every
row, the per-key group sums add up to the total sum. -/
theorem sumOn_filter_key {α β : Type} [DecidableEq β] (k : α → β) (f : α → ℚ) :
    ∀ (keys : List β) (xs : List α), keys.Nodup →
      (∀ x ∈ xs, k x ∈ keys) →
      (keys.map (fun b => sumOn (xs.filter (fun x => decide (k x = b))) f)).sum
        = sumOn xs f := by
  intro keys
  induction keys with
  | nil =>
      intro xs _ hx
      have hxs : xs = [] := by
        cases xs with
        | nil => rfl
        | cons a t => exact absurd (hx a (by simp)) (by simp)
      simp [hxs, sumOn]
  | cons b keys ih =>
      intro xs hnd hx
      have hb : b ∉ keys := (List.nodup_cons.mp hnd).1
      have hnd' : keys.Nodup := (List.nodup_cons.mp hnd).2
      set ys := xs.filter (fun x => ! decide (k x = b)) with hys
      have hcov : ∀ x ∈ ys, k x ∈ keys := by
        intro x hxy
        have hmem := List.mem_filter.mp hxy
        have hne : ¬ (k x = b) := by
          have := hmem.2
          simpa using this
        have := hx x hmem.1
        rcases List.mem_cons.mp this with h | h
        · exact absurd h hne
        · exact h
      have hsame : ∀ b' ∈ keys,
          xs.filter (fun x => decide (k x = b'))
            = ys.filter (fun x => decide (k x = b')) := by
        intro b' hb'
        have hbne : b' ≠ b := by
          intro hEq; exact hb (hEq ▸ hb')
        refine filter_filter_of_imp _ _ xs ?_
        intro x _ hpx
        have : k x = b' := of_decide_eq_true hpx
        simp [this, hbne]
      have hmapeq :
          (keys.map (fun b' => sumOn (xs.filter (fun x => decide (k x = b'))) f))
            = (keys.map (fun b' => sumOn (ys.filter (fun x => decide (k x = b'))) f)) := by
        refine List.map_congr_left ?_
        intro b' hb'
        rw [hsame b' hb']
      have hsplit := sumOn_filter_add_not (fun x => decide (k x = b)) xs f
      calc ((b :: keys).map (fun b' => sumOn (xs.filter (fun x => decide (k x = b'))) f)).sum
          = sumOn (xs.filter (fun x => decide (k x = b))) f
            + (keys.map (fun b' => sumOn (xs.filter (fun x => decide (k x = b'))) f)).sum := by
            simp
        _ = sumOn (xs.filter (fun x => decide (k x = b))) f + sumOn ys f := by
            rw [hmapeq, ih ys hnd' hcov]
        _ = sumOn xs f := hsplit

/-- GROUP BY over the deduplicated key values occurring in the rows
recovers the total sum. -/
theorem sumOn_groups {α β : Type} [DecidableEq β] (k : α → β) (f : α → ℚ) (xs : List α) :
    (((xs.map k).dedup).map (fun b => sumOn (xs.filter (fun x => decide (k x = b))) f)).sum
      = sumOn xs f := by
  refine sumOn_filter_key k f _ xs (List.nodup_dedup _) ?_
  intro x hx
  exact List.mem_dedup.mpr (List.mem_map_of_mem k hx)

/-- In a list of rows whose keys are duplicate-free, the group of any
present row is a singleton. -/
theorem length_filter_key_eq_one {α β : Type} [DecidableEq β] (g : α → β) :
    ∀ (xs : List α), (xs.map g).Nodup → ∀ x ∈ xs,
      (xs.filter (fun y => decide (g y = g x))).length = 1 := by
  intro xs
  induction xs with
  | nil => intro _ x hx; simp at hx
  | cons a t ih =>
      intro hnd x hx
      have hcons : g a ∉ t.map g ∧ (t.map g).Nodup := by
        rw [List.map_cons] at hnd
        exact List.nodup_cons.mp hnd
      have hna : g a ∉ t.map g := hcons.1
      have hnd' : (t.map g).Nodup := hcons.2
      rcases List.mem_cons.mp hx with hxa | hxt
      · subst hxa
        have hempty : t.filter (fun y => decide (g y = g x)) = [] := by
          refine List.filter_eq_nil_iff.mpr ?_
          intro y hy hgy
          exact hna (by
            have : g y = g x := of_decide_eq_true hgy
            exact this ▸ List.mem_map_of_mem g hy)
        simp [List.filter_cons, hempty]
      · have hne : ¬ (g a = g x) := by
          intro hEq
          exact hna (hEq ▸ List.mem_map_of_mem g hxt)
        simp [List.filter_cons, hne, ih hnd' x hxt]

/-! ## Authentication controller (src/server/src/controllers/authController.ts) -/

/-- Modelled from the spec: zod's email format check
(z.string().email()) is external library code; it is modelled as
requiring an at-sign, which is all the claims need of it. -/
def emailOk (s : String) : Bool :=
  s.data.any (fun ch => ch == '@')

/-- Validated registration body (registerSchema). -/
structure RegisterInput where
  name : String
  email : String
  password : String
deriving DecidableEq

/-- registerSchema: name 2..50, email format, password 6..100. -/
def registerValid (r : RegisterInput) : Bool :=
  decide (2 ≤ r.name.length) && decide (r.name.length ≤ 50)
    && emailOk r.email
    && decide (6 ≤ r.password.length) && decide (r.password.length ≤ 100)

/-- The five default categories created for a new user during
registration. -/
def defaultCategories (uid base : Nat) : List Category :=
  [ { id := base, userId := uid, name := "Food", color := some "#FF5733", monthlyLimit := some 500 },
    { id := base + 1, userId := uid, name := "Transport", color := some "#33FF57", monthlyLimit := some 200 },
    { id := base + 2, userId := uid, name := "Rent", color := some "#3357FF", monthlyLimit := some 1000 },
    { id := base + 3, userId := uid, name := "Utilities", color := some "#F3FF33", monthlyLimit := some 150 },
    { id := base + 4, userId := uid, name := "Entertainment", color := some "#FF33F3", monthlyLimit := some 200 } ]

/-- prisma.user.create with the nested category create: the users table
carries a unique constraint on email (users_email_key in the
migration), so the insert fails if the email is taken; the nested
default-category create is part of the same statement and takes effect
only when the user row is inserted. -/
def dbCreateUser (st : State) (name email hashed : String) (newUserId newCatBase : Nat) :
    Option State :=
  if st.users.any (fun u => u.email == email) then none
  else some { st with
    users := st.users ++ [{ id := newUserId, name := name, email := email, password := hashed }],
    categories := st.categories ++ defaultCategories newUserId newCatBase }

/-- Response sent when zod validation throws (the ZodError reaches the
generic error handler, which is not an ApiError branch). -/
def validationErrorResp : Response :=
  { status := 500, success := false, message := "Validation error" }

/-- The duplicate-email response of register. -/
def emailConflictResp : Response :=
  { status := 400, success := false, message := "User with this email already exists" }

/-- Fallback response when an unexpected database error reaches the
error handler. -/
def serverErrorResp : Response :=
  { status := 500, success := false, message := "Internal Server Error" }

/-- Successful registration response. -/
def registerSuccessResp : Response :=
  { status := 201, success := true, message := "User registered successfully" }

/-- register: NOTE the controller sends the duplicate-email 400 but is
missing a `return`, so execution falls through and still attempts the
insert; the unique email constraint then rejects the insert, and since
Express has already sent the 400, that first response is the one the
client observes.  `hash` is the bcrypt oracle. -/
def register (hash : String → String) (st : State) (r : RegisterInput)
    (newUserId newCatBase : Nat) : State × Response :=
  if registerValid r = false then (st, validationErrorResp)
  else
    let conflictSent := st.users.any (fun u => u.email == r.email)
    let hashed := hash r.password
    match dbCreateUser st r.name r.email hashed newUserId newCatBase with
    | none => (st, if conflictSent then emailConflictResp else serverErrorResp)
    | some st' => (st', if conflictSent then emailConflictResp else registerSuccessResp)

/-- loginSchema: email format, password 6..100. -/
def loginValid (email password : String) : Bool :=
  emailOk email && decide (6 ≤ password.length) && decide (password.length ≤ 100)

/-- The uniform failed-login response. -/
def invalidCredResp : Response :=
  { status := 400, success := false, message := "Invalid credentials" }

/-- Successful login response (the token/user payload is issued by jwt
and is not part of the envelope modelled here). -/
def loginSuccessResp : Response :=
  { status := 200, success := true, message := "Login successful" }

/-- login.  `hashMatch password storedHash` is the bcrypt.compare
oracle. -/
def login (hashMatch : String → String → Bool) (st : State)
    (email password : String) : Response :=
  if loginValid email password = false then validationErrorResp
  else
    match st.users.find? (fun u => u.email == email) with
    | none => invalidCredResp
    | some u => if hashMatch password u.password then loginSuccessResp else invalidCredResp

/-! ## Category controller (categoryController.ts, src/unnamed/part_003) -/

/-- Validated create-category body (createCategorySchema): name 1..50,
optional color, optional nonnegative monthlyLimit. -/
structure CreateCategoryInput where
  name : String
  color : Option String
  monthlyLimit : Option ℚ
deriving DecidableEq

def createCategoryValid (i : CreateCategoryInput) : Bool :=
  decide (1 ≤ i.name.length) && decide (i.name.length ≤ 50)
    && (match i.monthlyLimit with
        | none => true
        | some l => decide (0 ≤ l))

/-- Duplicate-name response of createCategory / updateCategory. -/
def dupCategoryResp : Response :=
  { status := 400, success := false, message := "You already have a category with this name" }

/-- Successful createCategory response. -/
def categoryCreatedResp : Response :=
  { status := 201, success := true, message := "Category created successfully" }

/-- createCategory.  The stored limit mirrors the JS truthiness of
`validatedData.monthlyLimit ? toString() : null`: an absent limit and a
limit of 0 are both stored as null. -/
def createCategory (st : State) (uid : Nat) (i : CreateCategoryInput)
    (newId : Nat) : State × Response :=
  if createCategoryValid i = false then (st, validationErrorResp)
  else if st.categories.any (fun c => decide (c.name = i.name ∧ c.userId = uid)) then
    (st, dupCategoryResp)
  else
    let storedLimit : Option ℚ :=
      match i.monthlyLimit with
      | some l => if l ≠ 0 then some l else none
      | none => none
    ({ st with categories := st.categories ++
        [{ id := newId, userId := uid, name := i.name, color := i.color,
           monthlyLimit := storedLimit }] },
     categoryCreatedResp)

/-- Validated update-category body (updateCategorySchema): every field
optional, absent fields left unchanged. -/
structure UpdateCategoryInput where
  name : Option String
  color : Option String
  monthlyLimit : Option ℚ
deriving DecidableEq

def updateCategoryValid (i : UpdateCategoryInput) : Bool :=
  (match i.name with
   | none => true
   | some n => decide (1 ≤ n.length) && decide (n.length ≤ 50))
    && (match i.monthlyLimit with
        | none => true
        | some l => decide (0 ≤ l))

def categoryNotFoundResp : Response :=
  { status := 404, success := false, message := "Category not found" }

def categoryUpdatedResp : Response :=
  { status := 200, success := true, message := "Category updated successfully" }

/-- Applying the partial patch of updateCategory to a category row.
Unlike createCategory, `monthlyLimit !== undefined ? toString() :
undefined` stores a provided limit even when it is 0. -/
def applyCategoryPatch (i : UpdateCategoryInput) (c : Category) : Category :=
  { c with
    name := i.name.getD c.name,
    color := match i.color with
             | some col => some col
             | none => c.color,
    monthlyLimit := match i.monthlyLimit with
                    | some l => some l
                    | none => c.monthlyLimit }

/-- updateCategory. -/
def updateCategory (st : State) (uid cid : Nat) (i : UpdateCategoryInput) :
    State × Response :=
  if updateCategoryValid i = false then (st, validationErrorResp)
  else
    match st.categories.find? (fun c => decide (c.id = cid ∧ c.userId = uid)) with
    | none => (st, categoryNotFoundResp)
    | some existing =>
        if (match i.name with
            | some n => decide (n ≠ existing.name)
                && st.categories.any (fun c =>
                     decide (c.name = n ∧ c.userId = uid ∧ c.id ≠ cid))
            | none => false) then
          (st, dupCategoryResp)
        else
          ({ st with categories := st.categories.map (fun c =>
               if c.id = cid ∧ c.userId = uid then applyCategoryPatch i c else c) },
           categoryUpdatedResp)

def categoryDeletedResp : Response :=
  { status := 200, success := true, message := "Category deleted successfully" }

/-- The blocked-deletion message, reporting the dependent-expense
count. -/
def categoryBlockedMessage (n : Nat) : String :=
  "Cannot delete category. It is used by " ++ toString n ++ " expenses."

/-- deleteCategory: 404 if the category is absent or not owned; blocked
with the count when expenses still reference it (the count query is
keyed on the category id only, exactly as in the controller); otherwise
the row is removed. -/
def deleteCategory (st : State) (uid cid : Nat) : State × Response :=
  match st.categories.find? (fun c => decide (c.id = cid ∧ c.userId = uid)) with
  | none => (st, categoryNotFoundResp)
  | some _ =>
      let expensesCount := (st.expenses.filter (fun e => decide (e.categoryId = some cid))).length
      if 0 < expensesCount then
        (st, { status := 400, success := false,
               message := categoryBlockedMessage expensesCount })
      else
        ({ st with categories := st.categories.filter (fun c =>
             ! decide (c.id = cid ∧ c.userId = uid)) },
         categoryDeletedResp)

/-- An entry of the category-summary response. -/
structure SummaryEntry where
  id : Nat
  name : String
  color : Option String
  monthlyLimit : Option ℚ
  totalSpent : ℚ
  percentage : Option ℤ
  status : Option Status
deriving DecidableEq

/-- The expenses of category `cid` dated inside the month window
`[lo, hi]` (the included, date-filtered relation of findMany). -/
def monthExpensesFor (st : State) (cid lo hi : Nat) : List Expense :=
  st.expenses.filter (fun e => decide (e.categoryId = some cid ∧ lo ≤ e.date ∧ e.date ≤ hi))

/-- Building one summary entry from a category row, as in the map of
getCategorySummary.  `percentage` is only computed when the limit is
truthy (non-null and nonzero), the status thresholds test the unrounded
percentage, and the reported percentage is nulled again when the
computed percentage is 0 (JS `percentage ? Math.round(percentage) :
null`). -/
def summaryEntryFor (st : State) (lo hi : Nat) (c : Category) : SummaryEntry :=
  let totalSpent := sumOn (monthExpensesFor st c.id lo hi) (fun e => e.amount)
  let limit := c.monthlyLimit
  let percentage : Option ℚ :=
    match limit with
    | some l => if l ≠ 0 then some (totalSpent / l * 100) else none
    | none => none
  { id := c.id, name := c.name, color := c.color, monthlyLimit := limit,
    totalSpent := totalSpent,
    percentage :=
      match percentage with
      | some p => if p ≠ 0 then some (round p) else none
      | none => none,
    status :=
      match percentage with
      | some p =>
          if p < 60 then some Status.green
          else if 60 ≤ p ∧ p ≤ 100 then some Status.yellow
          else some Status.red
      | none => none }

/-- getCategorySummary for the month window `[lo, hi]`: one entry per
category owned by the caller. -/
def getCategorySummary (st : State) (uid lo hi : Nat) : List SummaryEntry :=
  (st.categories.filter (fun c => decide (c.userId = uid))).map (summaryEntryFor st lo hi)

/-! ## Expense controller (expenseController.ts, src/unnamed/part_002) -/

/-- Query parameters of the expense listing (page and limit are given
here already parsed to numbers; the string parsing of req.query is
request-plumbing). -/
structure ListQuery where
  categoryId : Option Nat
  startDate : Option Nat
  endDate : Option Nat
  pageNum : Nat
  limitNum : Nat
  sortBy : String
  sortOrder : String
deriving DecidableEq

/-- The prisma where-filter built by getAllExpenses. -/
def matchesFilter (uid : Nat) (q : ListQuery) (e : Expense) : Bool :=
  decide (e.userId = uid)
    && (match q.categoryId with
        | none => true
        | some c => decide (e.categoryId = some c))
    && (match q.startDate with
        | none => true
        | some s => decide (s ≤ e.date))
    && (match q.endDate with
        | none => true
        | some t => decide (e.date ≤ t))

def allowedSortFields : List String := ["date", "amount", "title", "createdAt"]

def allowedSortOrders : List String := ["asc", "desc"]

/-- The orderBy object actually passed to prisma: the requested pair
when both parts are allowed, date-descending otherwise. -/
def orderByOf (sb so : String) : String × String :=
  if sb ∈ allowedSortFields ∧ so ∈ allowedSortOrders then (sb, so) else ("date", "desc")

/-- Ascending comparison on the requested sort field (any string not
naming another allowed field compares by date; `orderByOf` guarantees
only allowed fields reach prisma). -/
def fieldLe (sb : String) (a b : Expense) : Bool :=
  if sb = "amount" then decide (a.amount ≤ b.amount)
  else if sb = "title" then decide (a.title ≤ b.title)
  else if sb = "createdAt" then decide (a.createdAt ≤ b.createdAt)
  else decide (a.date ≤ b.date)

/-- The comparison realising the orderBy pair. -/
def expenseLe (sb so : String) (a b : Expense) : Bool :=
  if so = "asc" then fieldLe sb a b else fieldLe sb b a

/-- The database sort for an orderBy pair.  The database's sorting
algorithm is not part of the source; any sort producing the requested
order is a faithful model, and insertion sort keeps the model
executable. -/
def sortExpenses (sb so : String) (xs : List Expense) : List Expense :=
  xs.insertionSort (fun a b => expenseLe sb so a b = true)

/-- The JSON body of the expense listing. -/
structure ListResult where
  success : Bool
  count : Nat
  total : Nat
  page : Nat
  limit : Nat
  totalPages : Nat
  data : List Expense
deriving DecidableEq

/-- Math.ceil (total / limit) on the naturals involved, for limit ≥ 1
(limit 0 would give Infinity in JS and is outside every claim). -/
def jsCeilDiv (a b : Nat) : Nat := (a + b - 1) / b

/-- getAllExpenses: filter, count, sort, and return the page
`[(page-1)*limit, (page-1)*limit + limit)` plus pagination metadata. -/
def getAllExpenses (st : State) (uid : Nat) (q : ListQuery) : ListResult :=
  let filtered := st.expenses.filter (matchesFilter uid q)
  let total := filtered.length
  let ob := orderByOf q.sortBy q.sortOrder
  let sorted := sortExpenses ob.1 ob.2 filtered
  let skip := (q.pageNum - 1) * q.limitNum
  let pageData := (sorted.drop skip).take q.limitNum
  { success := true,
    count := pageData.length,
    total := total,
    page := q.pageNum,
    limit := q.limitNum,
    totalPages := jsCeilDiv total q.limitNum,
    data := pageData }

/-- Validated create-expense body (createExpenseSchema): title 1..100,
positive amount, a parseable date (dates arrive here already as day
numbers), notes up to 500 characters. -/
structure CreateExpenseInput where
  title : String
  amount : ℚ
  categoryId : Nat
  date : Nat
  notes : Option String
deriving DecidableEq

def createExpenseValid (i : CreateExpenseInput) : Bool :=
  decide (1 ≤ i.title.length) && decide (i.title.length ≤ 100)
    && decide (0 < i.amount)
    && (match i.notes with
        | none => true
        | some s => decide (s.length ≤ 500))

def invalidCategoryResp : Response :=
  { status := 400, success := false, message := "Invalid category" }

def expenseCreatedResp : Response :=
  { status := 201, success := true, message := "Expense created successfully" }

/-- createExpense: the category must exist and belong to the caller. -/
def createExpense (st : State) (uid : Nat) (i : CreateExpenseInput)
    (newId createdAt : Nat) : State × Response :=
  if createExpenseValid i = false then (st, validationErrorResp)
  else
    match st.categories.find? (fun c => decide (c.id = i.categoryId ∧ c.userId = uid)) with
    | none => (st, invalidCategoryResp)
    | some _ =>
        ({ st with expenses := st.expenses ++
            [{ id := newId, userId := uid, categoryId := some i.categoryId,
               title := i.title, amount := i.amount, date := i.date,
               createdAt := createdAt, notes := i.notes }] },
         expenseCreatedResp)

/-- Validated update-expense body (updateExpenseSchema). -/
structure UpdateExpenseInput where
  title : Option String
  amount : Option ℚ
  categoryId : Option Nat
  date : Option Nat
  notes : Option String
deriving DecidableEq

def updateExpenseValid (i : UpdateExpenseInput) : Bool :=
  (match i.title with
   | none => true
   | some t => decide (1 ≤ t.length) && decide (t.length ≤ 100))
    && (match i.amount with
        | none => true
        | some a => decide (0 < a))
    && (match i.notes with
        | none => true
        | some s => decide (s.length ≤ 500))

def expenseNotFoundResp : Response :=
  { status := 404, success := false, message := "Expense not found" }

def expenseUpdatedResp : Response :=
  { status := 200, success := true, message := "Expense updated successfully" }

/-- Applying the partial patch of updateExpense to an expense row. -/
def applyExpensePatch (i : UpdateExpenseInput) (e : Expense) : Expense :=
  { e with
    title := i.title.getD e.title,
    amount := i.amount.getD e.amount,
    categoryId := match i.categoryId with
                  | some cid => some cid
                  | none => e.categoryId,
    date := i.date.getD e.date,
    notes := match i.notes with
             | some s => some s
             | none => e.notes }

/-- updateExpense: 404 when absent or not owned; a provided categoryId
must name a category of the caller. -/
def updateExpense (st : State) (uid eid : Nat) (i : UpdateExpenseInput) :
    State × Response :=
  if updateExpenseValid i = false then (st, validationErrorResp)
  else
    match st.expenses.find? (fun e => decide (e.id = eid ∧ e.userId = uid)) with
    | none => (st, expenseNotFoundResp)
    | some _ =>
        let catOk : Bool :=
          match i.categoryId with
          | some cid =>
              (st.categories.find? (fun c => decide (c.id = cid ∧ c.userId = uid))).isSome
          | none => true
        if catOk then
          ({ st with expenses := st.expenses.map (fun e =>
               if e.id = eid ∧ e.userId = uid then applyExpensePatch i e else e) },
           expenseUpdatedResp)
        else (st, invalidCategoryResp)

def expenseDeletedResp : Response :=
  { status := 200, success := true, message := "Expense deleted successfully" }

/-- deleteExpense. -/
def deleteExpense (st : State) (uid eid : Nat) : State × Response :=
  match st.expenses.find? (fun e => decide (e.id = eid ∧ e.userId = uid)) with
  | none => (st, expenseNotFoundResp)
  | some _ =>
      ({ st with expenses := st.expenses.filter (fun e =>
           ! decide (e.id = eid ∧ e.userId = uid)) },
       expenseDeletedResp)

/-! ### getExpensesSummary -/

/-- The summary periods with day-granularity buckets.  The year period
(monthly buckets over the trailing 12 months) is not modelled: no claim
concerns it, and it would need a calendar model. -/
inductive Period where
  | week
  | month
deriving DecidableEq

/-- The expenses of the caller inside the inclusive window
`[lo, hi]` (the WHERE clause shared by both aggregate queries). -/
def windowExpenses (st : State) (uid lo hi : Nat) : List Expense :=
  st.expenses.filter (fun e => decide (e.userId = uid ∧ lo ≤ e.date ∧ e.date ≤ hi))

/-- Whether the JOIN with the Category table keeps an expense row:
its category id must match some category row. -/
def hasCategoryRow (st : State) (e : Expense) : Bool :=
  st.categories.any (fun c => decide (e.categoryId = some c.id))

/-- One row of the per-category aggregate (the pie-chart data);
`percentage` is the share of the total, added after summing. -/
structure CatRow where
  id : Nat
  value : ℚ
  percentage : ℤ
deriving DecidableEq

/-- One row of the per-period aggregate (the line-chart data). -/
structure TimeRow where
  period : Nat
  amount : ℚ
deriving DecidableEq

/-- The body of the expenses summary. -/
structure SummaryOut where
  totalExpenses : ℚ
  categoryData : List CatRow
  timeSeriesData : List TimeRow
deriving DecidableEq

/-- getExpensesSummary: two aggregates over the same window — per
category (JOIN Category, GROUP BY category, ORDER BY total descending)
and per day (GROUP BY the date, ORDER BY date). -/
def getExpensesSummary (st : State) (uid today : Nat) (p : Period) : SummaryOut :=
  let lo := match p with
            | Period.week => today - 7
            | Period.month => today - 30
  let ws := windowExpenses st uid lo today
  let joined := ws.filter (hasCategoryRow st)
  let cids := (joined.filterMap (fun e => e.categoryId)).dedup
  let rows := cids.map (fun cid =>
    (cid, sumOn (joined.filter (fun e => decide (e.categoryId = some cid))) (fun e => e.amount)))
  let sortedRows := rows.insertionSort (fun a b => b.2 ≤ a.2)
  let total := sumOn sortedRows (fun r => r.2)
  let catRows := sortedRows.map (fun r =>
    { id := r.1, value := r.2, percentage := round (r.2 / total * 100) : CatRow })
  let days := ((ws.map (fun e => e.date)).dedup).insertionSort (fun a b => a ≤ b)
  let timeRows := days.map (fun d =>
    { period := d,
      amount := sumOn (ws.filter (fun e => decide (e.date = d))) (fun e => e.amount) : TimeRow })
  { totalExpenses := total, categoryData := catRows, timeSeriesData := timeRows }

/-! ## Reachable states and referential integrity

The controllers guard every write: an expense is only ever created or
repointed to an existing category of the caller, and a category is only
deleted when no expense references it.  Hence in every state the
application can reach, each expense row references an existing category
row.  This invariant is what makes the JOIN of the category aggregate
lossless. -/

/-- Every expense references an existing category row. -/
def refIntegrity (st : State) : Prop :=
  ∀ e ∈ st.expenses, ∃ c ∈ st.categories, e.categoryId = some c.id

/-- States reachable through the API handlers from the empty
database. -/
inductive Reachable : State → Prop where
  | init : Reachable emptyState
  | registerStep (hash : String → String) (st : State) (r : RegisterInput)
      (newUserId newCatBase : Nat) :
      Reachable st → Reachable (register hash st r newUserId newCatBase).1
  | createCategoryStep (st : State) (uid : Nat) (i : CreateCategoryInput) (newId : Nat) :
      Reachable st → Reachable (createCategory st uid i newId).1
  | updateCategoryStep (st : State) (uid cid : Nat) (i : UpdateCategoryInput) :
      Reachable st → Reachable (updateCategory st uid cid i).1
  | deleteCategoryStep (st : State) (uid cid : Nat) :
      Reachable st → Reachable (deleteCategory st uid cid).1
  | createExpenseStep (st : State) (uid : Nat) (i : CreateExpenseInput)
      (newId createdAt : Nat) :
      Reachable st → Reachable (createExpense st uid i newId createdAt).1
  | updateExpenseStep (st : State) (uid eid : Nat) (i : UpdateExpenseInput) :
      Reachable st → Reachable (updateExpense st uid eid i).1
  | deleteExpenseStep (st : State) (uid eid : Nat) :
      Reachable st → Reachable (deleteExpense st uid eid).1

theorem refIntegrity_empty : refIntegrity emptyState := by
  intro e he
  simp [emptyState] at he

theorem refIntegrity_append_categories {st : State} (newCats : List Category)
    (h : refIntegrity st) :
    refIntegrity { st with categories := st.categories ++ newCats } := by
  intro e he
  obtain ⟨c, hc, hcid⟩ := h e he
  exact ⟨c, List.mem_append_left _ hc, hcid⟩

theorem register_refIntegrity (hash : String → String) (st : State) (r : RegisterInput)
    (u b : Nat) (h : refIntegrity st) :
    refIntegrity (register hash st r u b).1 := by
  by_cases hv : registerValid r = false
  · simpa [register, hv] using h
  · by_cases hc : (st.users.any (fun w => w.email == r.email)) = true
    · simpa [register, hv, dbCreateUser, hc] using h
    · simpa [register, hv, dbCreateUser, hc] using
        refIntegrity_append_categories (defaultCategories u b) h

theorem createCategory_refIntegrity (st : State) (uid : Nat) (i : CreateCategoryInput)
    (newId : Nat) (h : refIntegrity st) :
    refIntegrity (createCategory st uid i newId).1 := by
  unfold createCategory
  split
  · exact h
  · split
    · exact h
    · exact refIntegrity_append_categories _ h

theorem updateCategory_refIntegrity (st : State) (uid cid : Nat) (i : UpdateCategoryInput)
    (h : refIntegrity st) :
    refIntegrity (updateCategory st uid cid i).1 := by
  unfold updateCategory
  split
  · exact h
  · split
    · exact h
    · split
      · exact h
      · intro e he
        obtain ⟨c, hc, hcid⟩ := h e he
        refine ⟨if c.id = cid ∧ c.userId = uid then applyCategoryPatch i c else c,
            List.mem_map_of_mem _ hc, ?_⟩
        split
        · exact hcid
        · exact hcid

theorem deleteCategory_refIntegrity (st : State) (uid cid : Nat)
    (h : refIntegrity st) :
    refIntegrity (deleteCategory st uid cid).1 := by
  unfold deleteCategory
  split
  · exact h
  · by_cases hcount :
      0 < (st.expenses.filter (fun e => decide (e.categoryId = some cid))).length
    · simpa [hcount] using h
    · simp only [hcount, if_false]
      intro e he
      obtain ⟨c, hc, hcid⟩ := h e he
      refine ⟨c, ?_, hcid⟩
      refine List.mem_filter.mpr ⟨hc, ?_⟩
      simp only [Bool.not_eq_true']
      refine decide_eq_false ?_
      rintro ⟨hcideq, _⟩
      apply hcount
      have hmem : e ∈ st.expenses.filter (fun e => decide (e.categoryId = some cid)) := by
        refine List.mem_filter.mpr ⟨he, ?_⟩
        simp [hcid, hcideq]
      exact List.length_pos.mpr (List.ne_nil_of_mem hmem)

theorem createExpense_refIntegrity (st : State) (uid : Nat) (i : CreateExpenseInput)
    (newId ts : Nat) (h : refIntegrity st) :
    refIntegrity (createExpense st uid i newId ts).1 := by
  unfold createExpense
  split
  · exact h
  · split
    · exact h
    · rename_i c hfind
      intro e he
      simp only [List.mem_append, List.mem_singleton] at he
      rcases he with he | he
      · exact h e he
      · subst he
        refine ⟨c, List.mem_of_find?_eq_some hfind, ?_⟩
        have := List.find?_some hfind
        have hp : c.id = i.categoryId ∧ c.userId = uid := of_decide_eq_true this
        simp [hp.1]

theorem updateExpense_refIntegrity (st : State) (uid eid : Nat) (i : UpdateExpenseInput)
    (h : refIntegrity st) :
    refIntegrity (updateExpense st uid eid i).1 := by
  have hmapcase : ∀ cid, i.categoryId = some cid →
      (st.categories.find? (fun c => decide (c.id = cid ∧ c.userId = uid))).isSome = true →
      refIntegrity { st with expenses := st.expenses.map (fun e =>
        if e.id = eid ∧ e.userId = uid then applyExpensePatch i e else e) } := by
    intro cid hcid hcat
    intro e he
    simp only [List.mem_map] at he
    obtain ⟨e0, he0, hpatch⟩ := he
    subst hpatch
    rw [Option.isSome_iff_exists] at hcat
    obtain ⟨c, hc⟩ := hcat
    have hpb := List.find?_some hc
    have hp : c.id = cid ∧ c.userId = uid := of_decide_eq_true hpb
    split
    · refine ⟨c, List.mem_of_find?_eq_some hc, ?_⟩
      simp [applyExpensePatch, hcid, hp.1]
    · exact h e0 he0
  have hmapnone : i.categoryId = none →
      refIntegrity { st with expenses := st.expenses.map (fun e =>
        if e.id = eid ∧ e.userId = uid then applyExpensePatch i e else e) } := by
    intro hcid
    intro e he
    simp only [List.mem_map] at he
    obtain ⟨e0, he0, hpatch⟩ := he
    subst hpatch
    split
    · obtain ⟨c, hc, hcid0⟩ := h e0 he0
      exact ⟨c, hc, by simpa [applyExpensePatch, hcid] using hcid0⟩
    · exact h e0 he0
  unfold updateExpense
  split
  · exact h
  · split
    · exact h
    · cases hcid : i.categoryId with
      | none =>
          simp only [hcid]
          rw [if_pos trivial]
          exact hmapnone hcid
      | some cid =>
          simp only [hcid]
          by_cases hcat :
            (st.categories.find? (fun c => decide (c.id = cid ∧ c.userId = uid))).isSome = true
          · rw [if_pos hcat]
            exact hmapcase cid hcid hcat
          · rw [if_neg hcat]
            exact h

theorem deleteExpense_refIntegrity (st : State) (uid eid : Nat)
    (h : refIntegrity st) :
    refIntegrity (deleteExpense st uid eid).1 := by
  unfold deleteExpense
  split
  · exact h
  · intro e he
    exact h e (List.mem_filter.mp he).1

/-- Every reachable state satisfies referential integrity. -/
theorem reachable_refIntegrity {st : State} (h : Reachable st) : refIntegrity st := by
  induction h with
  | init => exact refIntegrity_empty
  | registerStep hash st r u b _ ih => exact register_refIntegrity hash st r u b ih
  | createCategoryStep st uid i newId _ ih => exact createCategory_refIntegrity st uid i newId ih
  | updateCategoryStep st uid cid i _ ih => exact updateCategory_refIntegrity st uid cid i ih
  | deleteCategoryStep st uid cid _ ih => exact deleteCategory_refIntegrity st uid cid ih
  | createExpenseStep st uid i newId ts _ ih => exact createExpense_refIntegrity st uid i newId ts ih
  | updateExpenseStep st uid eid i _ ih => exact updateExpense_refIntegrity st uid eid i ih
  | deleteExpenseStep st uid eid _ ih => exact deleteExpense_refIntegrity st uid eid ih

/-! ## Claim C1 -/

/-- C1: for every registration request whose email already belongs to an
existing user, register returns the ConflictError response (the 400
duplicate-email envelope — the one response Express delivers despite
the missing return, since the subsequent insert is rejected by the
unique-email constraint) and the state is unchanged: no user row and no
default categories are created. -/
theorem register_conflict_email (hash : String → String) (st : State)
    (r : RegisterInput) (newUserId newCatBase : Nat)
    (hv : registerValid r = true)
    (hex : ∃ u ∈ st.users, u.email = r.email) :
    register hash st r newUserId newCatBase = (st, emailConflictResp) := by
  have hany : st.users.any (fun u => u.email == r.email) = true := by
    obtain ⟨u, hu, he⟩ := hex
    exact List.any_eq_true.mpr ⟨u, hu, by simp [he]⟩
  simp [register, hv, dbCreateUser, hany]

/-- A one-user database for exercising register and login. -/
def stAlice : State :=
  { users := [{ id := 1, name := "Alice", email := "alice@mail.com", password := "hpw" }],
    categories := [],
    expenses := [] }

theorem register_conflict_email_witness :
    registerValid { name := "Bob", email := "alice@mail.com", password := "secret1" } = true ∧
    (∃ u ∈ stAlice.users, u.email = "alice@mail.com") ∧
    register (fun s => s) stAlice
        { name := "Bob", email := "alice@mail.com", password := "secret1" } 2 10
      = (stAlice, emailConflictResp) :=
  ⟨by decide, by decide,
    register_conflict_email (fun s => s) stAlice
      { name := "Bob", email := "alice@mail.com", password := "secret1" } 2 10
      (by decide) (by decide)⟩

/-! ## Claim C5 -/

/-- C5: a failed login with an unknown email and a failed login with a
known email but a non-matching password hash produce the identical
"Invalid credentials" error response, so the two failure causes are
indistinguishable to the client. -/
theorem login_uniform_invalid_credentials
    (hashMatch : String → String → Bool) (st : State)
    (e1 p1 e2 p2 : String) (u : User)
    (hv1 : loginValid e1 p1 = true) (hv2 : loginValid e2 p2 = true)
    (h1 : st.users.find? (fun w => w.email == e1) = none)
    (h2 : st.users.find? (fun w => w.email == e2) = some u)
    (h3 : hashMatch p2 u.password = false) :
    login hashMatch st e1 p1 = invalidCredResp ∧
    login hashMatch st e2 p2 = invalidCredResp ∧
    login hashMatch st e1 p1 = login hashMatch st e2 p2 := by
  have l1 : login hashMatch st e1 p1 = invalidCredResp := by
    simp [login, hv1, h1]
  have l2 : login hashMatch st e2 p2 = invalidCredResp := by
    simp [login, hv2, h2, h3]
  exact ⟨l1, l2, l1.trans l2.symm⟩

theorem login_uniform_invalid_credentials_witness :
    loginValid "bob@mail.com" "password1" = true ∧
    loginValid "alice@mail.com" "wrongpw1" = true ∧
    stAlice.users.find? (fun w => w.email == "bob@mail.com") = none ∧
    stAlice.users.find? (fun w => w.email == "alice@mail.com")
      = some { id := 1, name := "Alice", email := "alice@mail.com", password := "hpw" } ∧
    ((fun p h => p == h) "wrongpw1" "hpw") = false ∧
    login (fun p h => p == h) stAlice "bob@mail.com" "password1"
      = login (fun p h => p == h) stAlice "alice@mail.com" "wrongpw1" :=
  ⟨by decide, by decide, by decide, by decide, by decide,
    (login_uniform_invalid_credentials (fun p h => p == h) stAlice
      "bob@mail.com" "password1" "alice@mail.com" "wrongpw1"
      { id := 1, name := "Alice", email := "alice@mail.com", password := "hpw" }
      (by decide) (by decide) (by decide) (by decide) (by decide)).2.2⟩

/-! ## Claim C6 -/

/-- C6: for an owned category, deletion is blocked — with the error
message reporting the dependent-expense count and the whole state
unchanged — exactly when some expense still references the category;
with zero references it succeeds, removing exactly the category row. -/
theorem deleteCategory_spec (st : State) (uid cid : Nat) (c : Category)
    (hfind : st.categories.find? (fun w => decide (w.id = cid ∧ w.userId = uid)) = some c) :
    (0 < (st.expenses.filter (fun e => decide (e.categoryId = some cid))).length →
      deleteCategory st uid cid =
        (st, { status := 400, success := false,
               message := categoryBlockedMessage
                 (st.expenses.filter (fun e => decide (e.categoryId = some cid))).length })) ∧
    ((st.expenses.filter (fun e => decide (e.categoryId = some cid))).length = 0 →
      (deleteCategory st uid cid).2 = categoryDeletedResp ∧
      (deleteCategory st uid cid).1.users = st.users ∧
      (deleteCategory st uid cid).1.expenses = st.expenses ∧
      ∀ w : Category, w ∈ (deleteCategory st uid cid).1.categories ↔
        (w ∈ st.categories ∧ ¬ (w.id = cid ∧ w.userId = uid))) := by
  constructor
  · intro hpos
    unfold deleteCategory
    rw [hfind]
    simp [hpos]
  · intro hzero
    have hnotpos : ¬ 0 < (st.expenses.filter (fun e => decide (e.categoryId = some cid))).length := by
      simp [hzero]
    have key : deleteCategory st uid cid =
        ({ st with categories := st.categories.filter (fun w =>
             ! decide (w.id = cid ∧ w.userId = uid)) },
         categoryDeletedResp) := by
      unfold deleteCategory
      rw [hfind]
      simp [hnotpos]
    refine ⟨by rw [key], by rw [key], by rw [key], ?_⟩
    intro w
    rw [key]
    simp only [List.mem_filter, Bool.not_eq_true', decide_eq_false_iff_not]

/-- A database with a category referenced by two expenses. -/
def stFood : State :=
  { users := [{ id := 1, name := "Alice", email := "alice@mail.com", password := "hpw" }],
    categories := [{ id := 3, userId := 1, name := "Food", color := none, monthlyLimit := none }],
    expenses :=
      [{ id := 10, userId := 1, categoryId := some 3, title := "Lunch", amount := 12,
         date := 100, createdAt := 1, notes := none },
       { id := 11, userId := 1, categoryId := some 3, title := "Dinner", amount := 20,
         date := 101, createdAt := 2, notes := none }] }

theorem deleteCategory_spec_witness :
    stFood.categories.find? (fun w => decide (w.id = 3 ∧ w.userId = 1))
      = some { id := 3, userId := 1, name := "Food", color := none, monthlyLimit := none } ∧
    0 < (stFood.expenses.filter (fun e => decide (e.categoryId = some 3))).length ∧
    deleteCategory stFood 1 3 =
      (stFood, { status := 400, success := false,
                 message := categoryBlockedMessage
                   (stFood.expenses.filter (fun e => decide (e.categoryId = some 3))).length }) ∧
    categoryBlockedMessage 2 = "Cannot delete category. It is used by 2 expenses." :=
  ⟨by decide, by decide,
    (deleteCategory_spec stFood 1 3
      { id := 3, userId := 1, name := "Food", color := none, monthlyLimit := none }
      (by decide)).1 (by decide),
    by decide⟩

/-! ## Claim C7 -/

/-- Math.ceil of a natural division, as computed by jsCeilDiv, is the
rational ceiling. -/
theorem jsCeilDiv_eq_ceil (n l : Nat) (hl : 1 ≤ l) :
    ((jsCeilDiv n l : Nat) : ℤ) = ⌈(n : ℚ) / (l : ℚ)⌉ := by
  have hl0 : 0 < l := hl
  have hlq : (0 : ℚ) < (l : ℚ) := by exact_mod_cast hl0
  have hdm := Nat.div_add_mod (n + l - 1) l
  have hmlt : (n + l - 1) % l < l := Nat.mod_lt _ hl0
  obtain ⟨m, hm⟩ : ∃ m, l * ((n + l - 1) / l) = m := ⟨_, rfl⟩
  rw [hm] at hdm
  have h1 : n ≤ m := by omega
  have h2 : m < n + l := by omega
  have hqm : (jsCeilDiv n l) * l = m := by
    unfold jsCeilDiv
    rw [Nat.mul_comm]
    exact hm
  have hc1 : ((jsCeilDiv n l : Nat) : ℚ) * (l : ℚ) = (m : ℚ) := by exact_mod_cast hqm
  have hc2 : ((n : Nat) : ℚ) ≤ (m : ℚ) := by exact_mod_cast h1
  have hc3 : ((m : Nat) : ℚ) < (n : ℚ) + (l : ℚ) := by exact_mod_cast h2
  symm
  rw [Int.ceil_eq_iff]
  constructor
  · rw [lt_div_iff₀ hlq]
    push_cast
    nlinarith [hc1, hc3]
  · rw [div_le_iff₀ hlq]
    push_cast
    linarith [hc1, hc2]

/-- C7: the expense listing with positive page p and limit l over n
filtered rows skips (p-1)*l records, returns min l (n - (p-1)*l)
records (natural subtraction is the max-with-0 of the claim), and
reports totalPages = ceiling of n / l. -/
theorem getAllExpenses_pagination (st : State) (uid : Nat) (q : ListQuery)
    (hp : 1 ≤ q.pageNum) (hl : 1 ≤ q.limitNum) :
    (getAllExpenses st uid q).data.length
        = min q.limitNum
            ((st.expenses.filter (matchesFilter uid q)).length - (q.pageNum - 1) * q.limitNum) ∧
    ((getAllExpenses st uid q).totalPages : ℤ)
        = ⌈((st.expenses.filter (matchesFilter uid q)).length : ℚ) / (q.limitNum : ℚ)⌉ ∧
    (getAllExpenses st uid q).count = (getAllExpenses st uid q).data.length ∧
    (getAllExpenses st uid q).total = (st.expenses.filter (matchesFilter uid q)).length ∧
    (getAllExpenses st uid q).data
        = ((sortExpenses (orderByOf q.sortBy q.sortOrder).1 (orderByOf q.sortBy q.sortOrder).2
              (st.expenses.filter (matchesFilter uid q))).drop
            ((q.pageNum - 1) * q.limitNum)).take q.limitNum := by
  have hlen : (sortExpenses (orderByOf q.sortBy q.sortOrder).1 (orderByOf q.sortBy q.sortOrder).2
      (st.expenses.filter (matchesFilter uid q))).length
      = (st.expenses.filter (matchesFilter uid q)).length :=
    (List.perm_insertionSort _ _).length_eq
  refine ⟨?_, ?_, rfl, rfl, rfl⟩
  · simp [getAllExpenses, List.length_take, List.length_drop, hlen]
  · show ((jsCeilDiv (st.expenses.filter (matchesFilter uid q)).length q.limitNum : Nat) : ℤ) = _
    exact jsCeilDiv_eq_ceil _ _ hl

/-- A database of 25 expenses of one user. -/
def stPage : State :=
  { users := [], categories := [],
    expenses := (List.range 25).map (fun i =>
      { id := i, userId := 7, categoryId := some 1, title := "spend", amount := 5,
        date := i, createdAt := i, notes := none }) }

/-- Listing query: page 2, limit 10, date-descending. -/
def qPage : ListQuery :=
  { categoryId := none, startDate := none, endDate := none,
    pageNum := 2, limitNum := 10, sortBy := "date", sortOrder := "desc" }

theorem getAllExpenses_pagination_witness :
    1 ≤ qPage.pageNum ∧ 1 ≤ qPage.limitNum ∧
    (getAllExpenses stPage 7 qPage).count = (getAllExpenses stPage 7 qPage).data.length ∧
    (getAllExpenses stPage 7 qPage).count = 10 ∧
    (getAllExpenses stPage 7 qPage).totalPages = 3 ∧
    (getAllExpenses stPage 7 qPage).total = 25 :=
  ⟨by decide, by decide,
    (getAllExpenses_pagination stPage 7 qPage (by decide) (by decide)).2.2.1,
    by decide, by decide, by decide⟩

/-! ## Claim C8 -/

/-- C8: when the requested sortBy is not an allowed field or the
requested sortOrder is not asc/desc, the listing succeeds, equals the
date-descending listing, and its page is ordered by date descending. -/
theorem getAllExpenses_invalid_sort_fallback (st : State) (uid : Nat) (q : ListQuery)
    (h : q.sortBy ∉ allowedSortFields ∨ q.sortOrder ∉ allowedSortOrders) :
    getAllExpenses st uid q
        = getAllExpenses st uid { q with sortBy := "date", sortOrder := "desc" } ∧
    (getAllExpenses st uid q).success = true ∧
    (getAllExpenses st uid q).data.Pairwise (fun a b => b.date ≤ a.date) := by
  have hob : orderByOf q.sortBy q.sortOrder = ("date", "desc") := by
    unfold orderByOf
    rw [if_neg]
    rintro ⟨hA, hB⟩
    rcases h with h | h
    · exact h hA
    · exact h hB
  have hob2 : orderByOf "date" "desc" = ("date", "desc") := by
    unfold orderByOf
    rw [if_pos]
    exact ⟨by decide, by decide⟩
  have heqq : getAllExpenses st uid q
      = getAllExpenses st uid { q with sortBy := "date", sortOrder := "desc" } := by
    simp only [getAllExpenses, hob, hob2]
    rfl
  refine ⟨heqq, rfl, ?_⟩
  have hdata : (getAllExpenses st uid q).data
      = ((sortExpenses "date" "desc" (st.expenses.filter (matchesFilter uid q))).drop
          ((q.pageNum - 1) * q.limitNum)).take q.limitNum := by
    simp only [getAllExpenses, hob]
  rw [hdata]
  have hr : ∀ a b : Expense, (expenseLe "date" "desc" a b = true) ↔ b.date ≤ a.date := by
    intro a b
    simp [expenseLe, fieldLe]
  haveI htot : IsTotal Expense (fun a b => expenseLe "date" "desc" a b = true) := by
    constructor
    intro a b
    rw [hr, hr]
    exact Nat.le_total b.date a.date
  haveI htrans : IsTrans Expense (fun a b => expenseLe "date" "desc" a b = true) := by
    constructor
    intro a b c hab hbc
    rw [hr] at hab hbc ⊢
    exact le_trans hbc hab
  have hsorted : (sortExpenses "date" "desc"
      (st.expenses.filter (matchesFilter uid q))).Pairwise
      (fun a b => expenseLe "date" "desc" a b = true) :=
    List.sorted_insertionSort (fun a b : Expense => expenseLe "date" "desc" a b = true)
      (st.expenses.filter (matchesFilter uid q))
  have hsub : (((sortExpenses "date" "desc" (st.expenses.filter (matchesFilter uid q))).drop
        ((q.pageNum - 1) * q.limitNum)).take q.limitNum).Sublist
      (sortExpenses "date" "desc" (st.expenses.filter (matchesFilter uid q))) :=
    (List.take_sublist _ _).trans (List.drop_sublist _ _)
  have hpw := List.Pairwise.sublist hsub hsorted
  exact List.Pairwise.imp (fun hab => (hr _ _).mp hab) hpw

/-- A query with an invalid sort field. -/
def qBogus : ListQuery :=
  { categoryId := none, startDate := none, endDate := none,
    pageNum := 1, limitNum := 20, sortBy := "bogus", sortOrder := "desc" }

theorem getAllExpenses_invalid_sort_fallback_witness :
    (qBogus.sortBy ∉ allowedSortFields ∨ qBogus.sortOrder ∉ allowedSortOrders) ∧
    (getAllExpenses stFood 1 qBogus
        = getAllExpenses stFood 1 { qBogus with sortBy := "date", sortOrder := "desc" } ∧
      (getAllExpenses stFood 1 qBogus).success = true ∧
      (getAllExpenses stFood 1 qBogus).data.Pairwise (fun a b => b.date ≤ a.date)) :=
  ⟨Or.inl (by decide),
    getAllExpenses_invalid_sort_fallback stFood 1 qBogus (Or.inl (by decide))⟩

/-! ## Basic facts about summary entries -/

theorem summaryEntryFor_id (st : State) (lo hi : Nat) (c : Category) :
    (summaryEntryFor st lo hi c).id = c.id := rfl

theorem summaryEntryFor_limit (st : State) (lo hi : Nat) (c : Category) :
    (summaryEntryFor st lo hi c).monthlyLimit = c.monthlyLimit := rfl

theorem summaryEntryFor_totalSpent (st : State) (lo hi : Nat) (c : Category) :
    (summaryEntryFor st lo hi c).totalSpent
      = sumOn (monthExpensesFor st c.id lo hi) (fun e => e.amount) := rfl

/-- With a truthy (nonzero) limit, the status is the 60/100
classification of the unrounded percentage. -/
theorem summaryEntryFor_status_pos (st : State) (lo hi : Nat) (c : Category) (l : ℚ)
    (hl : c.monthlyLimit = some l) (hne : l ≠ 0) :
    (summaryEntryFor st lo hi c).status =
      (if sumOn (monthExpensesFor st c.id lo hi) (fun e => e.amount) / l * 100 < 60 then
        some Status.green
       else if 60 ≤ sumOn (monthExpensesFor st c.id lo hi) (fun e => e.amount) / l * 100
              ∧ sumOn (monthExpensesFor st c.id lo hi) (fun e => e.amount) / l * 100 ≤ 100 then
        some Status.yellow
       else some Status.red) := by
  simp [summaryEntryFor, hl, hne]

/-- With a null or zero stored limit the status is null. -/
theorem summaryEntryFor_status_none (st : State) (lo hi : Nat) (c : Category)
    (h : c.monthlyLimit = none ∨ c.monthlyLimit = some 0) :
    (summaryEntryFor st lo hi c).status = none := by
  rcases h with h | h
  · simp [summaryEntryFor, h]
  · simp [summaryEntryFor, h]

/-- With a truthy limit and a nonzero spend, the reported percentage is
the rounded unrounded percentage. -/
theorem summaryEntryFor_percentage_pos (st : State) (lo hi : Nat) (c : Category) (l : ℚ)
    (hl : c.monthlyLimit = some l) (hne : l ≠ 0)
    (hts : sumOn (monthExpensesFor st c.id lo hi) (fun e => e.amount) ≠ 0) :
    (summaryEntryFor st lo hi c).percentage
      = some (round (sumOn (monthExpensesFor st c.id lo hi) (fun e => e.amount) / l * 100)) := by
  have hp : sumOn (monthExpensesFor st c.id lo hi) (fun e => e.amount) / l * 100 ≠ 0 :=
    mul_ne_zero (div_ne_zero hts hne) (by norm_num)
  simp [summaryEntryFor, hl, hne, hp]

/-- The reported percentage is null whenever the limit is null, the
limit is 0, or the month's spend is 0. -/
theorem summaryEntryFor_percentage_none (st : State) (lo hi : Nat) (c : Category)
    (h : c.monthlyLimit = none ∨ c.monthlyLimit = some 0
      ∨ sumOn (monthExpensesFor st c.id lo hi) (fun e => e.amount) = 0) :
    (summaryEntryFor st lo hi c).percentage = none := by
  rcases h with h | h | h
  · simp [summaryEntryFor, h]
  · simp [summaryEntryFor, h]
  · cases hml : c.monthlyLimit with
    | none => simp [summaryEntryFor, hml]
    | some l =>
        by_cases hl0 : l = 0
        · simp [summaryEntryFor, hml, hl0]
        · simp [summaryEntryFor, hml, hl0, h]

/-! ## Claim C2 -/

/-- The status classification that claim C2 asserts for a given
percentage value. -/
def statusMatchesClaim (p : ℚ) (s : Option Status) : Prop :=
  (s = some Status.green ↔ p < 60) ∧
  (s = some Status.yellow ↔ 60 ≤ p ∧ p ≤ 100) ∧
  (s = some Status.red ↔ 100 < p)

/-- Claim C2 exactly as stated: every summary entry with a set (non-null)
monthly limit is classified green/yellow/red by its spent-to-limit
percentage, and every entry without a limit has null status. -/
def claimC2 (st : State) (uid lo hi : Nat) : Prop :=
  ∀ entry ∈ getCategorySummary st uid lo hi,
    (∀ l : ℚ, entry.monthlyLimit = some l →
        statusMatchesClaim (100 * entry.totalSpent / l) entry.status) ∧
    (entry.monthlyLimit = none → entry.status = none)

/-- A category whose stored monthly limit is 0; such a row is produced
by updateCategory, which stores a provided 0 limit. -/
def stZeroLimit : State :=
  { users := [{ id := 1, name := "Alice", email := "alice@mail.com", password := "hpw" }],
    categories := [{ id := 5, userId := 1, name := "Gym", color := none, monthlyLimit := some 0 }],
    expenses := [] }

/-- The zero-limit state is produced by updateCategory from a
positive-limit category: updating with monthlyLimit 0 stores 0, not
null. -/
theorem updateCategory_stores_zero_limit :
    (updateCategory
      { users := [{ id := 1, name := "Alice", email := "alice@mail.com", password := "hpw" }],
        categories := [{ id := 5, userId := 1, name := "Gym", color := none, monthlyLimit := some 50 }],
        expenses := [] }
      1 5 { name := none, color := none, monthlyLimit := some 0 }).1 = stZeroLimit := by
  decide

/-- C2 counterexample: in the zero-limit state the entry has a set
monthly limit (0) but null status, while the claim's classification
demands a colour for every entry with a set limit. -/
theorem claimC2_counterexample : ¬ claimC2 stZeroLimit 1 0 30 := by
  intro h
  have hmem : summaryEntryFor stZeroLimit 0 30
      { id := 5, userId := 1, name := "Gym", color := none, monthlyLimit := some 0 }
      ∈ getCategorySummary stZeroLimit 1 0 30 := by
    refine List.mem_map_of_mem _ ?_
    decide
  have hlim : (summaryEntryFor stZeroLimit 0 30
      { id := 5, userId := 1, name := "Gym", color := none, monthlyLimit := some 0 }).monthlyLimit
      = some 0 := rfl
  have hclaim := (h _ hmem).1 0 hlim
  have hstat : (summaryEntryFor stZeroLimit 0 30
      { id := 5, userId := 1, name := "Gym", color := none, monthlyLimit := some 0 }).status
      = none :=
    summaryEntryFor_status_none _ _ _ _ (Or.inr rfl)
  have hpct : (100 : ℚ) * (summaryEntryFor stZeroLimit 0 30
      { id := 5, userId := 1, name := "Gym", color := none, monthlyLimit := some 0 }).totalSpent / 0
      < 60 := by
    rw [summaryEntryFor_totalSpent]
    norm_num [monthExpensesFor, stZeroLimit, sumOn]
  have := hclaim.1.mpr hpct
  rw [hstat] at this
  exact Option.noConfusion this

/-- The 60/100 threshold classification satisfies the claim's
characterisation for any percentage value. -/
theorem classify_spec (p : ℚ) :
    statusMatchesClaim p
      (if p < 60 then some Status.green
       else if 60 ≤ p ∧ p ≤ 100 then some Status.yellow
       else some Status.red) := by
  unfold statusMatchesClaim
  by_cases h1 : p < 60
  · rw [if_pos h1]
    exact ⟨by simp [h1],
      iff_of_false (by simp) (by rintro ⟨h60, _⟩; linarith),
      iff_of_false (by simp) (by intro h100; linarith)⟩
  · rw [if_neg h1]
    push_neg at h1
    by_cases h2 : 60 ≤ p ∧ p ≤ 100
    · rw [if_pos h2]
      exact ⟨iff_of_false (by simp) (by intro hlt; linarith),
        by simp [h2],
        iff_of_false (by simp) (by intro h100; linarith [h2.2])⟩
    · rw [if_neg h2]
      have h100 : 100 < p := by
        rcases not_and_or.mp h2 with hx | hx
        · exact absurd h1 hx
        · push_neg at hx
          exact hx
      exact ⟨iff_of_false (by simp) (by intro hlt; linarith),
        iff_of_false (by simp) (by rintro ⟨_, hle⟩; linarith),
        by simp [h100]⟩

/-- C2 amended: for every owned category with a positive monthly limit
the status is green below 60 percent, yellow from 60 to 100 inclusive
and red above 100; for a category whose stored limit is null or 0 the
status is null (the code treats a stored 0 limit like no limit). -/
theorem getCategorySummary_status_amended (st : State) (uid lo hi : Nat)
    (entry : SummaryEntry) (he : entry ∈ getCategorySummary st uid lo hi) :
    (∀ l : ℚ, entry.monthlyLimit = some l → 0 < l →
        statusMatchesClaim (100 * entry.totalSpent / l) entry.status) ∧
    ((entry.monthlyLimit = none ∨ entry.monthlyLimit = some 0) → entry.status = none) := by
  simp only [getCategorySummary, List.mem_map] at he
  obtain ⟨c, _, hentry⟩ := he
  subst hentry
  constructor
  · intro l hl hlpos
    have hlim : c.monthlyLimit = some l := by
      rw [← summaryEntryFor_limit st lo hi c]
      exact hl
    have harg : 100 * (summaryEntryFor st lo hi c).totalSpent / l
        = sumOn (monthExpensesFor st c.id lo hi) (fun e => e.amount) / l * 100 := by
      rw [summaryEntryFor_totalSpent]
      ring
    rw [harg, summaryEntryFor_status_pos st lo hi c l hlim (ne_of_gt hlpos)]
    exact classify_spec _
  · intro hcase
    refine summaryEntryFor_status_none st lo hi c ?_
    rcases hcase with hcase | hcase
    · exact Or.inl (by rw [← summaryEntryFor_limit st lo hi c]; exact hcase)
    · exact Or.inr (by rw [← summaryEntryFor_limit st lo hi c]; exact hcase)

/-- A database with a 100-limit category and a 50-spend expense inside
the month window [0, 30]. -/
def stTravel : State :=
  { users := [{ id := 1, name := "Alice", email := "alice@mail.com", password := "hpw" }],
    categories := [{ id := 2, userId := 1, name := "Travel", color := none, monthlyLimit := some 100 }],
    expenses := [{ id := 20, userId := 1, categoryId := some 2, title := "Bus", amount := 50,
                   date := 10, createdAt := 1, notes := none }] }

theorem getCategorySummary_status_amended_witness :
    (summaryEntryFor stTravel 0 30
        { id := 2, userId := 1, name := "Travel", color := none, monthlyLimit := some 100 }
      ∈ getCategorySummary stTravel 1 0 30) ∧
    ((∀ l : ℚ, (summaryEntryFor stTravel 0 30
          { id := 2, userId := 1, name := "Travel", color := none, monthlyLimit := some 100 }).monthlyLimit
            = some l → 0 < l →
        statusMatchesClaim
          (100 * (summaryEntryFor stTravel 0 30
            { id := 2, userId := 1, name := "Travel", color := none, monthlyLimit := some 100 }).totalSpent / l)
          (summaryEntryFor stTravel 0 30
            { id := 2, userId := 1, name := "Travel", color := none, monthlyLimit := some 100 }).status) ∧
      (((summaryEntryFor stTravel 0 30
            { id := 2, userId := 1, name := "Travel", color := none, monthlyLimit := some 100 }).monthlyLimit = none ∨
        (summaryEntryFor stTravel 0 30
            { id := 2, userId := 1, name := "Travel", color := none, monthlyLimit := some 100 }).monthlyLimit = some 0) →
        (summaryEntryFor stTravel 0 30
            { id := 2, userId := 1, name := "Travel", color := none, monthlyLimit := some 100 }).status = none)) :=
  ⟨List.mem_map_of_mem _ (by decide),
    getCategorySummary_status_amended stTravel 1 0 30 _
      (List.mem_map_of_mem _ (by decide))⟩

/-! ## Claim C4 -/

/-- Claim C4 exactly as stated: every summary entry with a set limit
reports the rounded percentage (including when spent is 0), and every
entry without a limit reports null. -/
def claimC4 (st : State) (uid lo hi : Nat) : Prop :=
  ∀ entry ∈ getCategorySummary st uid lo hi,
    (∀ l : ℚ, entry.monthlyLimit = some l →
        entry.percentage = some (round (100 * entry.totalSpent / l))) ∧
    (entry.monthlyLimit = none → entry.percentage = none)

/-- A database with a 100-limit category and no expenses. -/
def stIdle : State :=
  { users := [{ id := 1, name := "Alice", email := "alice@mail.com", password := "hpw" }],
    categories := [{ id := 4, userId := 1, name := "Books", color := none, monthlyLimit := some 100 }],
    expenses := [] }

/-- C4 counterexample: with limit 100 and spent 0 the code reports a
null percentage (JS zero-falsiness), while the claim demands the
non-null value round(0) = 0. -/
theorem claimC4_counterexample : ¬ claimC4 stIdle 1 0 30 := by
  intro h
  have hmem : summaryEntryFor stIdle 0 30
      { id := 4, userId := 1, name := "Books", color := none, monthlyLimit := some 100 }
      ∈ getCategorySummary stIdle 1 0 30 := by
    refine List.mem_map_of_mem _ ?_
    decide
  have hclaim := (h _ hmem).1 100 rfl
  have hnone : (summaryEntryFor stIdle 0 30
      { id := 4, userId := 1, name := "Books", color := none, monthlyLimit := some 100 }).percentage
      = none := by
    refine summaryEntryFor_percentage_none _ _ _ _ (Or.inr (Or.inr ?_))
    norm_num [monthExpensesFor, stIdle, sumOn]
  rw [hnone] at hclaim
  exact Option.noConfusion hclaim

/-- C4 amended: the reported percentage equals round(100 * spent /
limit) exactly when a nonzero limit is set and the month's spend is
nonzero; when no limit is set, the stored limit is 0, or the spend is
0, the reported percentage is null. -/
theorem getCategorySummary_percentage_amended (st : State) (uid lo hi : Nat)
    (entry : SummaryEntry) (he : entry ∈ getCategorySummary st uid lo hi) :
    (∀ l : ℚ, entry.monthlyLimit = some l → l ≠ 0 → entry.totalSpent ≠ 0 →
        entry.percentage = some (round (100 * entry.totalSpent / l))) ∧
    ((entry.monthlyLimit = none ∨ entry.monthlyLimit = some 0 ∨ entry.totalSpent = 0) →
        entry.percentage = none) := by
  simp only [getCategorySummary, List.mem_map] at he
  obtain ⟨c, _, hentry⟩ := he
  subst hentry
  constructor
  · intro l hl hlne hts
    have hlim : c.monthlyLimit = some l := by
      rw [← summaryEntryFor_limit st lo hi c]
      exact hl
    have hts' : sumOn (monthExpensesFor st c.id lo hi) (fun e => e.amount) ≠ 0 := by
      rw [← summaryEntryFor_totalSpent st lo hi c]
      exact hts
    have harg : 100 * (summaryEntryFor st lo hi c).totalSpent / l
        = sumOn (monthExpensesFor st c.id lo hi) (fun e => e.amount) / l * 100 := by
      rw [summaryEntryFor_totalSpent]
      ring
    rw [harg]
    exact summaryEntryFor_percentage_pos st lo hi c l hlim hlne hts'
  · intro hcase
    refine summaryEntryFor_percentage_none st lo hi c ?_
    rcases hcase with hcase | hcase | hcase
    · exact Or.inl (by rw [← summaryEntryFor_limit st lo hi c]; exact hcase)
    · exact Or.inr (Or.inl (by rw [← summaryEntryFor_limit st lo hi c]; exact hcase))
    · exact Or.inr (Or.inr (by rw [← summaryEntryFor_totalSpent st lo hi c]; exact hcase))

theorem getCategorySummary_percentage_amended_witness :
    (summaryEntryFor stTravel 0 30
        { id := 2, userId := 1, name := "Travel", color := none, monthlyLimit := some 100 }
      ∈ getCategorySummary stTravel 1 0 30) ∧
    (summaryEntryFor stTravel 0 30
        { id := 2, userId := 1, name := "Travel", color := none, monthlyLimit := some 100 }).totalSpent ≠ 0 ∧
    (∀ l : ℚ, (summaryEntryFor stTravel 0 30
          { id := 2, userId := 1, name := "Travel", color := none, monthlyLimit := some 100 }).monthlyLimit
            = some l → l ≠ 0 →
        (summaryEntryFor stTravel 0 30
          { id := 2, userId := 1, name := "Travel", color := none, monthlyLimit := some 100 }).totalSpent ≠ 0 →
        (summaryEntryFor stTravel 0 30
          { id := 2, userId := 1, name := "Travel", color := none, monthlyLimit := some 100 }).percentage
          = some (round (100 * (summaryEntryFor stTravel 0 30
              { id := 2, userId := 1, name := "Travel", color := none, monthlyLimit := some 100 }).totalSpent / l))) :=
  ⟨List.mem_map_of_mem _ (by decide),
    by
      rw [summaryEntryFor_totalSpent]
      norm_num [monthExpensesFor, stTravel, sumOn],
    (getCategorySummary_percentage_amended stTravel 1 0 30 _
      (List.mem_map_of_mem _ (by decide))).1⟩

/-! ## Claim C9 -/

/-- C9: creating a category with monthlyLimit 0 passes validation
(nonnegative) and succeeds, but the row is stored with a null limit, so
the category summary reports null percentage and null status for it
regardless of spending. -/
theorem createCategory_zero_limit (st : State) (uid : Nat) (i : CreateCategoryInput)
    (newId lo hi : Nat)
    (hname : 1 ≤ i.name.length ∧ i.name.length ≤ 50)
    (h0 : i.monthlyLimit = some 0)
    (hdup : st.categories.any (fun c => decide (c.name = i.name ∧ c.userId = uid)) = false)
    (hfresh : ∀ c ∈ st.categories, c.id ≠ newId) :
    (createCategory st uid i newId).2 = categoryCreatedResp ∧
    (∃ c ∈ (createCategory st uid i newId).1.categories, c.id = newId ∧ c.monthlyLimit = none) ∧
    (∀ entry ∈ getCategorySummary (createCategory st uid i newId).1 uid lo hi,
      entry.id = newId → entry.percentage = none ∧ entry.status = none) := by
  have hv : createCategoryValid i = true := by
    simp [createCategoryValid, hname.1, hname.2, h0]
  have key : createCategory st uid i newId
      = ({ st with categories := st.categories ++
            [{ id := newId, userId := uid, name := i.name, color := i.color,
               monthlyLimit := none }] },
         categoryCreatedResp) := by
    unfold createCategory
    rw [hv, hdup]
    simp [h0]
  refine ⟨by rw [key], ?_, ?_⟩
  · rw [key]
    exact ⟨_, List.mem_append_right _ (List.mem_singleton_self _), rfl, rfl⟩
  · intro entry hentry hid
    rw [key] at hentry
    simp only [getCategorySummary, List.mem_map] at hentry
    obtain ⟨c, hcmem, hentryeq⟩ := hentry
    have hcapp := (List.mem_filter.mp hcmem).1
    rcases List.mem_append.mp hcapp with hold | hnew
    · exfalso
      apply hfresh c hold
      rw [← hentryeq] at hid
      exact hid
    · have hcnew : c = (⟨newId, uid, i.name, i.color, none⟩ : Category) :=
        List.mem_singleton.mp hnew
      subst hentryeq
      constructor
      · exact summaryEntryFor_percentage_none _ _ _ _ (Or.inl (by rw [hcnew]))
      · exact summaryEntryFor_status_none _ _ _ _ (Or.inl (by rw [hcnew]))

theorem createCategory_zero_limit_witness :
    (1 ≤ ("Gym" : String).length ∧ ("Gym" : String).length ≤ 50) ∧
    ((createCategory emptyState 1 { name := "Gym", color := none, monthlyLimit := some 0 } 9).2
        = categoryCreatedResp ∧
      (∃ c ∈ (createCategory emptyState 1
          { name := "Gym", color := none, monthlyLimit := some 0 } 9).1.categories,
        c.id = 9 ∧ c.monthlyLimit = none) ∧
      (∀ entry ∈ getCategorySummary (createCategory emptyState 1
          { name := "Gym", color := none, monthlyLimit := some 0 } 9).1 1 0 30,
        entry.id = 9 → entry.percentage = none ∧ entry.status = none)) :=
  ⟨⟨by decide, by decide⟩,
    createCategory_zero_limit emptyState 1
      { name := "Gym", color := none, monthlyLimit := some 0 } 9 0 30
      ⟨by decide, by decide⟩ rfl (by decide) (by decide)⟩

/-! ## Claim C10 -/

/-- C10: when the owned categories have distinct ids (the primary-key
invariant), the category summary has exactly one entry for each owned
category, and that entry's totalSpent is the sum over the category's
expenses dated in the month — in particular 0 when there are none. -/
theorem getCategorySummary_complete (st : State) (uid lo hi : Nat)
    (hnd : ((st.categories.filter (fun c => decide (c.userId = uid))).map (fun c => c.id)).Nodup)
    (c : Category) (hc : c ∈ st.categories) (hu : c.userId = uid) :
    ((getCategorySummary st uid lo hi).filter (fun entry => decide (entry.id = c.id))).length = 1 ∧
    (∀ entry ∈ getCategorySummary st uid lo hi, entry.id = c.id →
      entry.totalSpent = sumOn (monthExpensesFor st c.id lo hi) (fun e => e.amount)) ∧
    (monthExpensesFor st c.id lo hi = [] →
      ∀ entry ∈ getCategorySummary st uid lo hi, entry.id = c.id → entry.totalSpent = 0) := by
  have hcmem : c ∈ st.categories.filter (fun c => decide (c.userId = uid)) :=
    List.mem_filter.mpr ⟨hc, by simp [hu]⟩
  have hspent : ∀ entry ∈ getCategorySummary st uid lo hi, entry.id = c.id →
      entry.totalSpent = sumOn (monthExpensesFor st c.id lo hi) (fun e => e.amount) := by
    intro entry hentry hid
    simp only [getCategorySummary, List.mem_map] at hentry
    obtain ⟨c', _, hentryeq⟩ := hentry
    subst hentryeq
    rw [summaryEntryFor_totalSpent]
    rw [summaryEntryFor_id] at hid
    rw [hid]
  refine ⟨?_, hspent, ?_⟩
  · have hfm : (getCategorySummary st uid lo hi).filter (fun entry => decide (entry.id = c.id))
        = ((st.categories.filter (fun c => decide (c.userId = uid))).filter
            (fun c' => decide (c'.id = c.id))).map (summaryEntryFor st lo hi) := by
      unfold getCategorySummary
      rw [List.filter_map]
      rfl
    rw [hfm, List.length_map]
    exact length_filter_key_eq_one (fun w => w.id)
      (st.categories.filter (fun c => decide (c.userId = uid))) hnd c hcmem
  · intro hempty entry hentry hid
    rw [hspent entry hentry hid, hempty]
    rfl

/-- Two categories of one user; the only expense is dated outside the
month window [0, 30]. -/
def stTwoCats : State :=
  { users := [{ id := 1, name := "Alice", email := "alice@mail.com", password := "hpw" }],
    categories :=
      [{ id := 1, userId := 1, name := "A", color := none, monthlyLimit := none },
       { id := 2, userId := 1, name := "B", color := none, monthlyLimit := none }],
    expenses := [{ id := 30, userId := 1, categoryId := some 1, title := "Late", amount := 9,
                   date := 50, createdAt := 1, notes := none }] }

theorem getCategorySummary_complete_witness :
    ((stTwoCats.categories.filter (fun c => decide (c.userId = 1))).map (fun c => c.id)).Nodup ∧
    ({ id := 1, userId := 1, name := "A", color := none, monthlyLimit := none } : Category)
      ∈ stTwoCats.categories ∧
    monthExpensesFor stTwoCats 1 0 30 = [] ∧
    (((getCategorySummary stTwoCats 1 0 30).filter (fun entry => decide (entry.id = 1))).length = 1 ∧
      (∀ entry ∈ getCategorySummary stTwoCats 1 0 30, entry.id = 1 →
        entry.totalSpent = sumOn (monthExpensesFor stTwoCats 1 0 30) (fun e => e.amount)) ∧
      (monthExpensesFor stTwoCats 1 0 30 = [] →
        ∀ entry ∈ getCategorySummary stTwoCats 1 0 30, entry.id = 1 → entry.totalSpent = 0)) :=
  ⟨by decide, by decide, by decide,
    getCategorySummary_complete stTwoCats 1 0 30 (by decide)
      { id := 1, userId := 1, name := "A", color := none, monthlyLimit := none }
      (by decide) rfl⟩

/-! ## Claim C3 -/

theorem sumOn_map {α β : Type} (l : List α) (g : α → β) (f : β → ℚ) :
    sumOn (l.map g) f = sumOn l (fun x => f (g x)) := by
  unfold sumOn
  rw [List.map_map]
  rfl

/-- The per-day buckets of the time-series aggregate sum to the total
spend of the window. -/
theorem time_sums_core (ws : List Expense) :
    sumOn ((((ws.map (fun e => e.date)).dedup).insertionSort (fun a b => a ≤ b)).map (fun d =>
        ({ period := d,
           amount := sumOn (ws.filter (fun e => decide (e.date = d))) (fun e => e.amount) } : TimeRow)))
      (fun row => row.amount)
      = sumOn ws (fun e => e.amount) := by
  rw [sumOn_map]
  rw [sumOn_perm (List.perm_insertionSort _ _)]
  exact sumOn_groups (fun e : Expense => e.date) (fun e => e.amount) ws

/-- The per-category rows of the category aggregate sum to the total
spend of the window, provided every row carries a category id. -/
theorem summary_sums_core (ws : List Expense) (T : ℚ)
    (hcov : ∀ x ∈ ws, ∃ cid, x.categoryId = some cid) :
    sumOn (((((ws.filterMap (fun e => e.categoryId)).dedup).map (fun cid =>
          (cid, sumOn (ws.filter (fun e => decide (e.categoryId = some cid)))
            (fun e => e.amount)))).insertionSort (fun a b => b.2 ≤ a.2)).map (fun r =>
        ({ id := r.1, value := r.2, percentage := round (r.2 / T * 100) } : CatRow)))
      (fun row => row.value)
      = sumOn ws (fun e => e.amount) := by
  rw [sumOn_map]
  rw [sumOn_perm (List.perm_insertionSort _ _)]
  rw [sumOn_map]
  have hnd : ((ws.filterMap (fun e => e.categoryId)).dedup.map some).Nodup :=
    List.Nodup.map (Option.some_injective _) (List.nodup_dedup _)
  have hcov' : ∀ x ∈ ws,
      (fun e : Expense => e.categoryId) x
        ∈ (ws.filterMap (fun e => e.categoryId)).dedup.map some := by
    intro x hx
    obtain ⟨cid, hcid⟩ := hcov x hx
    show x.categoryId ∈ _
    rw [hcid]
    refine List.mem_map_of_mem some ?_
    refine List.mem_dedup.mpr ?_
    exact List.mem_filterMap.mpr ⟨x, hx, hcid⟩
  have hkey := sumOn_filter_key (fun e : Expense => e.categoryId) (fun e => e.amount)
    ((ws.filterMap (fun e => e.categoryId)).dedup.map some) ws hnd hcov'
  unfold sumOn at hkey ⊢
  rw [List.map_map] at hkey
  exact hkey

/-- C3: for every reachable database state, the sum of the per-day
buckets of the trailing-week expense summary equals the sum of the
per-category totals of its category breakdown — the two aggregates both
partition the same window, and referential integrity makes the JOIN of
the category aggregate lossless. -/
theorem getExpensesSummary_week_consistent (st : State) (h : Reachable st)
    (uid today : Nat) :
    sumOn (getExpensesSummary st uid today Period.week).timeSeriesData (fun row => row.amount)
      = sumOn (getExpensesSummary st uid today Period.week).categoryData (fun row => row.value) := by
  have hint := reachable_refIntegrity h
  have hall : ∀ e ∈ windowExpenses st uid (today - 7) today, hasCategoryRow st e = true := by
    intro e he
    have heSt : e ∈ st.expenses := (List.mem_filter.mp he).1
    obtain ⟨c, hc, hcid⟩ := hint e heSt
    exact List.any_eq_true.mpr ⟨c, hc, by simp [hcid]⟩
  have hjoined : (windowExpenses st uid (today - 7) today).filter (hasCategoryRow st)
      = windowExpenses st uid (today - 7) today := List.filter_eq_self.mpr hall
  have hcov : ∀ x ∈ windowExpenses st uid (today - 7) today, ∃ cid, x.categoryId = some cid := by
    intro x hx
    obtain ⟨c, _, hcid⟩ := hint x (List.mem_filter.mp hx).1
    exact ⟨c.id, hcid⟩
  simp only [getExpensesSummary]
  rw [hjoined]
  rw [time_sums_core, summary_sums_core _ _ hcov]

/-- A reachable database holding a registered user and one expense. -/
theorem getExpensesSummary_week_consistent_witness :
    Reachable (createExpense (register (fun s => s) emptyState
        { name := "Alice", email := "alice@mail.com", password := "secret1" } 1 10).1
        1 { title := "Lunch", amount := 5, categoryId := 10, date := 8, notes := none } 100 0).1 ∧
    sumOn (getExpensesSummary (createExpense (register (fun s => s) emptyState
        { name := "Alice", email := "alice@mail.com", password := "secret1" } 1 10).1
        1 { title := "Lunch", amount := 5, categoryId := 10, date := 8, notes := none } 100 0).1
        1 10 Period.week).timeSeriesData (fun row => row.amount)
      = sumOn (getExpensesSummary (createExpense (register (fun s => s) emptyState
          { name := "Alice", email := "alice@mail.com", password := "secret1" } 1 10).1
          1 { title := "Lunch", amount := 5, categoryId := 10, date := 8, notes := none } 100 0).1
          1 10 Period.week).categoryData (fun row => row.value) :=
  ⟨Reachable.createExpenseStep _ 1 _ 100 0
      (Reachable.registerStep (fun s => s) emptyState _ 1 10 Reachable.init),
    getExpensesSummary_week_consistent _
      (Reachable.createExpenseStep _ 1 _ 100 0
        (Reachable.registerStep (fun s => s) emptyState _ 1 10 Reachable.init))
      1 10⟩

end ExpenseTracker
